import Mathlib

/-!
# Verification of the `sreq` HTTP client engine vendored in `mxget`

A shallow embedding, in Lean 4, of the request/response execution pipeline of
the `sreq` HTTP client library (vendored under
`vendor/github.com/winterssy/sreq`): the retry/backoff engine
(`Client.doWithRetry`, `Retry.Merge`, `DefaultBackoff`), the interceptor
chain (`Client.Do`, `Client.onBeforeRequest`), the transparent gzip
substitution (`Client.do`), the response decoder
(`Response.Content`, `Response.JSON`, `Response.XML`), and the request
builder's Content-Type handling (`Request.SetContentType`, `Request.Decode`).

Modelling conventions:
* Go `time.Duration` values are `Int` nanosecond counts; Go `int` loop
  counters are `Nat`; byte strings are `List Nat`.
* The `float64` arithmetic inside `DefaultBackoff` is modelled over `Int`
  with the `int64 → float64` conversions made explicit: `floatRoundInt`
  performs IEEE-754 round-to-nearest (ties to even) at 53-bit precision,
  the only lossy step for int64-ranged durations.  Multiplying a float by
  `math.Exp2(attempt)` shifts the exponent and is exact until overflow to
  `+Inf`, where `math.Min` selects `float64(max)` just as the uncapped
  integer product exceeds it; `math.Min`, the halving `temp / 2` and
  `math.Abs` are exact; `int(temp/2)` agrees with `Int` division for the
  nonnegative values that reach it, and a negative `temp` lands in the
  `n <= 0` fallback branch under either truncation convention.
* Nil-able Go pointers and functions become `Option`; fallible calls return
  a value paired with an `Option Err`.
* The single-use network body stream is modelled with explicit state
  passing: a `Response` carries the not-yet-consumed stream plus an
  instrumentation counter of how many times the stream was read.
* Cancellation (`context.Context`) is modelled by numbering the points at
  which `doWithRetry` observes the context (point `2*i` right after
  transport attempt `i`, point `2*i+1` during the backoff wait that follows
  attempt `i`) and by a schedule `fireAt : Option Nat` giving the first
  observation point at which the context is cancelled.
-/

namespace Sreq

/-- Errors surfaced by the engine.  `ctxCanceled` stands for the error
returned by `ctx.Err()` once the request's context has fired; the other
constructors carry an abstract code distinguishing concrete errors. -/
inductive Err where
  | ctxCanceled : Err
  | transport : Nat → Err
  | hook : Nat → Err
  | gzipHeader : Err
  | readFail : Nat → Err
  | decode : Nat → Err
  deriving DecidableEq, Repr

/-! ## `DefaultBackoff` (retry.go) -/

/-- `math.MaxInt32`, the fallback used by `DefaultBackoff` when the halved
base is not positive ("max int for arch 386"). -/
def maxInt32 : Int := 2 ^ 31 - 1

/-- One second in nanoseconds (`time.Second`). -/
def second : Int := 1000000000

/-- Floor of the base-2 logarithm, by structural recursion on a fuel
argument (`n` itself bounds the number of halvings), so that it reduces
inside the kernel. -/
def log2Aux : Nat → Nat → Nat
  | 0, _ => 0
  | fuel + 1, n => if 2 ≤ n then log2Aux fuel (n / 2) + 1 else 0

/-- `⌊log2 n⌋` for `n ≥ 1` (and 0 at 0). -/
def natLog2 (n : Nat) : Nat := log2Aux n n

/-- Rounding a natural number to the nearest `float64`-representable
integer: values below `2^53` are exact; larger values are rounded to the
nearest multiple of their unit in the last place `2^(log2 x - 52)`, ties
to the even multiple (IEEE-754 round-to-nearest-even, the mode Go uses for
`int64 → float64` conversions). -/
def floatRound53 (x : Nat) : Nat :=
  if x < 2 ^ 53 then x
  else
    let k := natLog2 x - 52
    let q := x / 2 ^ k
    let r := x % 2 ^ k
    let half := 2 ^ (k - 1)
    if r < half then q * 2 ^ k
    else if half < r then (q + 1) * 2 ^ k
    else if q % 2 = 0 then q * 2 ^ k else (q + 1) * 2 ^ k

/-- Go's `float64(v)` for an int64 value `v`: round-to-nearest-even at
53-bit precision, sign preserved. -/
def floatRoundInt (x : Int) : Int :=
  if x < 0 then -(floatRound53 x.natAbs : Int) else (floatRound53 x.natAbs : Int)

/-- Embedding of `DefaultBackoff` (retry.go):
`temp := math.Min(float64(max), float64(min)*math.Exp2(float64(attempt)))`,
`n := int(temp / 2)`, `if n <= 0 { n = math.MaxInt32 }`,
`sleep := time.Duration(math.Abs(float64(n + rand.Intn(n))))`,
`if sleep < min { sleep = min }`.
The `int64 → float64` conversions round via `floatRoundInt`; the remaining
float operations are exact for int64-ranged durations: multiplying the
float `float64(min)` by the power of two `math.Exp2(float64(attempt))`
shifts its exponent without touching the significand (overflow to `+Inf`
only ever happens once the product already exceeds `float64(max)`, when
`math.Min` discards it either way), `math.Min` and the halving are exact,
`int(temp/2)` truncates (for the nonnegative values reaching `n` this is
`Int` division; a negative `temp` falls into the `n <= 0` branch under
either convention), and the final `time.Duration(...)` truncation of the
already-integer-valued rounded float is exact.
The random draw `rand.Intn(n)` (uniform in `[0, n)`, `n ≥ 1` at that point)
is modelled by `(draw : Int) % n` for an arbitrary `draw : Nat`, which
ranges over exactly `[0, n)`. -/
def DefaultBackoff (mn mx : Int) (attempt : Nat) (draw : Nat) : Int :=
  let temp : Int := min (floatRoundInt mx) (floatRoundInt mn * 2 ^ attempt)
  let n0 : Int := temp / 2
  let n : Int := if n0 ≤ 0 then maxInt32 else n0
  let sleep : Int := |floatRoundInt (n + (draw : Int) % n)|
  if sleep < mn then mn else sleep

/-! ## Retry policy (retry.go, sreq v0.9.x revision) -/

/-- A trigger's / backoff's view of the response after an attempt:
the raw response handle (abstract id, `none` = nil) and the error slot. -/
structure RespState where
  raw : Option Nat
  err : Option Err

/-- `Backoff func(min, max time.Duration, attemptNum int, resp *Response)
time.Duration` (retry.go). -/
def BackoffFn : Type := Int → Int → Nat → RespState → Int

/-- `Retry` (retry.go): max attempts, wait bounds, backoff and trigger.
`Backoff` and `Trigger` are nil-able function pointers, hence `Option`. -/
structure Retry where
  MaxAttempts : Int
  WaitTime : Int
  MaxWaitTime : Int
  Backoff : Option BackoffFn
  Trigger : Option (RespState → Bool)

/-- `DefaultTrigger` (retry.go): retry iff the response error is non-nil. -/
def DefaultTrigger (resp : RespState) : Bool :=
  resp.err.isSome

/-- `defaultRetry` (retry.go): MaxAttempts 1 (no retries), WaitTime 1s,
MaxWaitTime 30s, DefaultBackoff, DefaultTrigger.  The random seed of the
default backoff is irrelevant to every property proved below; it is fixed
to 0. -/
def defaultRetry : Retry where
  MaxAttempts := 1
  WaitTime := second
  MaxWaitTime := 30 * second
  Backoff := some (fun mn mx attempt _ => DefaultBackoff mn mx attempt 0)
  Trigger := some DefaultTrigger

/-- `(*Retry).Merge` (retry.go): if the receiver is nil return `r2`,
otherwise replace each zero/nil field of the receiver by the corresponding
field of `r2` and return the receiver. -/
def Retry.Merge : Option Retry → Retry → Retry
  | none, r2 => r2
  | some r, r2 =>
      { MaxAttempts := if r.MaxAttempts = 0 then r2.MaxAttempts else r.MaxAttempts
        WaitTime := if r.WaitTime = 0 then r2.WaitTime else r.WaitTime
        MaxWaitTime := if r.MaxWaitTime = 0 then r2.MaxWaitTime else r.MaxWaitTime
        Backoff := match r.Backoff with
          | none => r2.Backoff
          | some b => some b
        Trigger := match r.Trigger with
          | none => r2.Trigger
          | some t => some t }

end Sreq

namespace Sreq

/-! ## The retry loop (`Client.doWithRetry`, client.go, sreq v0.9.x revision)

The `Request` struct of that revision is not vendored (only its caller
`client.go` and the matching `retry.go` are); the fields below are exactly
those the vendored caller reads: `req.Retry` (`*Retry`),
`req.RawRequest.Body` (nil-able reader), `req.RawRequest.GetBody`
(nil-able replay closure).  The replay closure is represented by the bytes
it replays. -/

/-- The kinds of reader a request body can be set from
(`Request.SetBody`, request.go): the three in-memory, replayable kinds for
which `SetBody` installs a `GetBody` closure, and the streamed kinds
(`io.Pipe` from `SetMultipart`, or any other reader) for which it does not. -/
inductive BodyKind where
  | buffer : List Nat → BodyKind
  | bytesReader : List Nat → BodyKind
  | stringsReader : List Nat → BodyKind
  | pipe : Nat → BodyKind
  | otherReader : Nat → BodyKind
  deriving DecidableEq, Repr

/-- The fields of the raw `*http.Request` written by `Request.SetBody` and
read by the retry loop. -/
structure RawRequest where
  body : Option BodyKind
  getBody : Option (List Nat)
  contentLength : Int
  deriving DecidableEq, Repr

/-- The fields of `sreq.Request` read by `doWithRetry`. -/
structure Request where
  Retry : Option Retry
  RawRequest : RawRequest

/-- Result of one transport attempt (`c.do(req)`): the raw response handle
and the error, as assigned by `resp.RawResponse, resp.err = c.do(req)`. -/
structure AttemptOutcome where
  raw : Option Nat
  err : Option Err

/-- Whether the request's context is observed as cancelled at observation
point `p`.  `fireAt = some f` means the context fires just before point `f`
and stays cancelled (monotone); `none` means it never fires. -/
def cancelledAt (fireAt : Option Nat) (p : Nat) : Bool :=
  match fireAt with
  | none => false
  | some f => f ≤ p

/-- Outcome of a `doWithRetry` run: the final `resp.RawResponse` and
`resp.err`, plus instrumentation — the number of transport attempts
performed and the observation point at which the loop returned
(`none` when the loop body never ran). -/
structure RunResult where
  raw : Option Nat
  err : Option Err
  attempts : Nat
  lastObs : Option Nat
  deriving DecidableEq, Repr

/-- The body of `Client.doWithRetry`'s `for` loop (client.go):

```
for i := 0; i < retry.MaxAttempts; i++ {
    resp.RawResponse, resp.err = c.do(req)
    if err = ctx.Err(); err != nil { resp.err = err; return }
    if !allowRetry || i == retry.MaxAttempts-1 { return }
    shouldRetry := retry.Trigger(resp)
    if !shouldRetry { return }
    if req.RawRequest.GetBody != nil { req.RawRequest.Body, _ = req.RawRequest.GetBody() }
    select {
    case <-time.After(retry.Backoff(retry.WaitTime, retry.MaxWaitTime, i, resp)):
    case <-ctx.Done(): resp.err = ctx.Err(); return
    }
}
```

`remaining` is the number of loop iterations still allowed
(`retry.MaxAttempts - i`), `transport i` is the outcome of attempt `i`,
and the context is observed at point `2*i` (the `ctx.Err()` check) and at
point `2*i+1` (the `select` during the backoff wait).  The re-read of
`GetBody` between attempts does not influence the abstract transport
outcome and leaves no observable trace in the result. -/
def doWithRetryLoop (transport : Nat → AttemptOutcome) (fireAt : Option Nat)
    (trigger : RespState → Bool) (allowRetry : Bool) (maxAttempts : Nat) :
    Nat → Nat → RespState → RunResult
  | 0, i, resp => ⟨resp.raw, resp.err, i, none⟩
  | remaining + 1, i, _ =>
      let a := transport i
      let resp : RespState := ⟨a.raw, a.err⟩
      if cancelledAt fireAt (2 * i) then
        ⟨resp.raw, some Err.ctxCanceled, i + 1, some (2 * i)⟩
      else if !allowRetry || i = maxAttempts - 1 then
        ⟨resp.raw, resp.err, i + 1, some (2 * i)⟩
      else if !trigger resp then
        ⟨resp.raw, resp.err, i + 1, some (2 * i)⟩
      else if cancelledAt fireAt (2 * i + 1) then
        ⟨resp.raw, some Err.ctxCanceled, i + 1, some (2 * i + 1)⟩
      else
        doWithRetryLoop transport fireAt trigger allowRetry maxAttempts
          remaining (i + 1) resp

/-- `Client.doWithRetry` (client.go, sreq v0.9.x revision):
merge the request's retry policy with `defaultRetry`, compute
`allowRetry := req.RawRequest.Body == nil || req.RawRequest.GetBody != nil`,
then run the attempt loop.  After the merge `retry.Trigger` is never nil
(the default policy supplies `DefaultTrigger`); the `getD` fallback is
unreachable. -/
def doWithRetry (req : Request) (transport : Nat → AttemptOutcome)
    (fireAt : Option Nat) : RunResult :=
  doWithRetryLoop transport fireAt
    ((Retry.Merge req.Retry defaultRetry).Trigger.getD DefaultTrigger)
    (req.RawRequest.body = none || req.RawRequest.getBody ≠ none)
    (Retry.Merge req.Retry defaultRetry).MaxAttempts.toNat
    (Retry.Merge req.Retry defaultRetry).MaxAttempts.toNat 0 ⟨none, none⟩

/-! ## Response decoder (response.go)

A `Response` wraps the single-use network stream.  `netData` is the byte
sequence the stream yields before EOF (or before failing), `netReadErr` the
error `ioutil.ReadAll` would surface at the end of that sequence (`none` =
clean EOF).  `reads` counts how many times the network stream has been
consumed and `closed` records `Body.Close()`; both are instrumentation and
are written exactly where the Go code reads or closes the stream. -/

/-- The decoder-facing state of `sreq.Response` (response.go):
`err` is the terminal error slot, `body` the byte cache (`nil` until the
first read), plus the underlying stream and instrumentation. -/
structure Response where
  err : Option Err
  body : Option (List Nat)
  netData : List Nat
  netReadErr : Option Err
  reads : Nat
  closed : Bool
  deriving DecidableEq, Repr

/-- `(*Response).Content` (response.go):

```
if resp.err != nil || resp.body != nil { return resp.body, resp.err }
defer resp.RawResponse.Body.Close()
resp.body, err = ioutil.ReadAll(resp.RawResponse.Body)
return resp.body, err
```

`ioutil.ReadAll` returns the bytes read (a non-nil slice even on error)
together with its error; note that the error of a failed first read is
returned but not stored in `resp.err`. -/
def Response.Content (resp : Response) :
    (Option (List Nat) × Option Err) × Response :=
  if resp.err.isSome || resp.body.isSome then
    ((resp.body, resp.err), resp)
  else
    ((some resp.netData, resp.netReadErr),
     { resp with
        body := some resp.netData
        reads := resp.reads + 1
        closed := true })

/-- `(*Response).JSON` (response.go), parameterised by the behaviour of the
`encoding/json` library: `unmarshal` is the error result of
`json.Unmarshal` on a byte slice, and `decodeStream` is the behaviour of
`json.NewDecoder(r).Decode(v)` on a stream — the number of bytes it reads
from `r` before returning, and its error.

```
if resp.err != nil { return resp.err }
if resp.body != nil { return json.Unmarshal(resp.body, v) }
buf := acquireBuffer()
tee := io.TeeReader(resp.RawResponse.Body, buf)
defer func() { resp.RawResponse.Body.Close(); resp.body = buf.Bytes(); releaseBuffer(buf) }()
return json.NewDecoder(tee).Decode(v)
```

On the streaming path every byte the decoder reads through the tee is
mirrored into `buf`, and the deferred block stores exactly those mirrored
bytes in `resp.body`. -/
def Response.JSON (unmarshal : List Nat → Option Err)
    (decodeStream : List Nat → Nat × Option Err) (resp : Response) :
    Option Err × Response :=
  if resp.err.isSome then
    (resp.err, resp)
  else if resp.body.isSome then
    (unmarshal (resp.body.getD []), resp)
  else
    let consumed := (decodeStream resp.netData).1
    let mirrored := resp.netData.take consumed
    ((decodeStream resp.netData).2,
     { resp with
        body := some mirrored
        reads := resp.reads + 1
        closed := true })

/-- `(*Response).XML` (response.go): textually identical to `JSON` with
`encoding/xml` in place of `encoding/json`; parameterised the same way. -/
def Response.XML (unmarshal : List Nat → Option Err)
    (decodeStream : List Nat → Nat × Option Err) (resp : Response) :
    Option Err × Response :=
  if resp.err.isSome then
    (resp.err, resp)
  else if resp.body.isSome then
    (unmarshal (resp.body.getD []), resp)
  else
    let consumed := (decodeStream resp.netData).1
    let mirrored := resp.netData.take consumed
    ((decodeStream resp.netData).2,
     { resp with
        body := some mirrored
        reads := resp.reads + 1
        closed := true })

/-! ## Transparent gzip substitution (`Client.do`, client.go) -/

/-- The response body reader as seen by downstream consumers: either the
raw network reader or a `gzip.Reader` wrapped around another reader. -/
inductive BodyReader where
  | plain : List Nat → BodyReader
  | gzipReader : BodyReader → BodyReader
  deriving DecidableEq, Repr

/-- The type assertion `rawResponse.Body.(*gzip.Reader)` of client.go. -/
def BodyReader.isGzipReader : BodyReader → Bool
  | .plain _ => false
  | .gzipReader _ => true

/-- Reading a body reader to EOF, given the behaviour `gunzip` of the
`compress/gzip` decompressor on a byte stream. -/
def BodyReader.readAll (gunzip : List Nat → List Nat) : BodyReader → List Nat
  | .plain data => data
  | .gzipReader inner => gunzip (inner.readAll gunzip)

/-- ASCII lower-casing of one character, the relevant case of Go's Unicode
simple fold (header tokens here are ASCII). -/
def foldChar (c : Char) : Char :=
  if 'A' ≤ c ∧ c ≤ 'Z' then Char.ofNat (c.toNat + 32) else c

/-- `strings.EqualFold` restricted to ASCII strings. -/
def equalFold (s t : String) : Bool :=
  s.data.map foldChar = t.data.map foldChar

/-- The fields of the raw `*http.Response` read by `Client.do`:
the `Content-Encoding` header value (the result of
`rawResponse.Header.Get("Content-Encoding")`), `ContentLength`
and the body reader. -/
structure RawResponse where
  contentEncoding : String
  contentLength : Int
  body : BodyReader
  deriving DecidableEq, Repr

/-- `Client.do` (client.go, sreq v0.9.x revision):

```
rawResponse, err := c.RawClient.Do(req.RawRequest)
if err != nil { return rawResponse, err }
select { case err = <-req.err: return rawResponse, err; default: }
if strings.EqualFold(rawResponse.Header.Get("Content-Encoding"), "gzip") &&
    rawResponse.ContentLength != 0 {
    if _, ok := rawResponse.Body.(*gzip.Reader); !ok {
        body, err := gzip.NewReader(rawResponse.Body)
        rawResponse.Body.Close()
        rawResponse.Body = body
        return rawResponse, err
    }
}
return rawResponse, nil
```

`exchange` is the result of the underlying `c.RawClient.Do`, `bgErr` the
pending value (if any) of the background multipart error channel `req.err`,
and `gzipNewReaderErr` the error behaviour of `gzip.NewReader` on the
wrapped stream. -/
def Client.do (gzipNewReaderErr : BodyReader → Option Err)
    (exchange : RawResponse × Option Err) (bgErr : Option Err) :
    RawResponse × Option Err :=
  let rawResponse := exchange.1
  if exchange.2.isSome then
    (rawResponse, exchange.2)
  else if bgErr.isSome then
    (rawResponse, bgErr)
  else if equalFold rawResponse.contentEncoding "gzip" &&
      rawResponse.contentLength ≠ 0 then
    if !rawResponse.body.isGzipReader then
      ({ rawResponse with body := .gzipReader rawResponse.body },
       gzipNewReaderErr rawResponse.body)
    else
      (rawResponse, none)
  else
    (rawResponse, none)

/-- Wrapping a raw response (as produced by `Client.do`) into a fresh
`sreq.Response` whose stream yields what reading the body to EOF yields. -/
def mkResponse (gunzip : List Nat → List Nat) (raw : RawResponse)
    (e : Option Err) : Response where
  err := e
  body := none
  netData := raw.body.readAll gunzip
  netReadErr := none
  reads := 0
  closed := false

/-! ## Interceptor chain (`Client.Do` / `Client.onBeforeRequest`, client.go)

A before-request hook mutates the request and may return an error.  The
abstract request state carries a payload (standing for the mutable request)
and a log of the hooks that actually ran, so that "run in registration
order" and "the remaining hooks are skipped" are observable. -/

/-- Abstract mutable state of a request as seen by before-request hooks. -/
structure HookReq where
  val : Nat
  log : List Nat
  deriving DecidableEq, Repr

/-- A before-request hook (`BeforeRequestHook`). -/
def Hook : Type := HookReq → HookReq × Option Err

/-- `Client.onBeforeRequest` (client.go): run the hooks in registration
order, stopping at the first non-nil error. -/
def onBeforeRequest : List Hook → HookReq → HookReq × Option Err
  | [], req => (req, none)
  | h :: hs, req =>
      match h req with
      | (req1, some e) => (req1, some e)
      | (req1, none) => onBeforeRequest hs req1

/-- `Client.Do` (client.go, sreq v0.9.x revision):

```
resp := new(Response)
if err := c.onBeforeRequest(req); err != nil { resp.err = err; return resp }
req.Sync()
c.doWithRetry(req, resp)
c.onAfterResponse(resp)
return resp
```

When a before-hook fails, `doWithRetry` is never invoked: the returned run
has zero transport attempts and the hook's error as the terminal error.
`mkRequest` materialises the (hook-mutated) request for the retry engine,
standing for `req.Sync()` plus the request itself; after-response hooks do
not affect any property stated below and are elided from the result. -/
def Client.Do (hooks : List Hook) (mkRequest : HookReq → Request)
    (transport : Nat → AttemptOutcome) (fireAt : Option Nat)
    (req : HookReq) : RunResult :=
  match onBeforeRequest hooks req with
  | (_, some e) => ⟨none, some e, 0, none⟩
  | (req1, none) => doWithRetry (mkRequest req1) transport fireAt

/-! ## Request builder (request.go / sreq.go, sreq v0.8.x revision)

`Values` (the type behind `Headers`, `Params`, `Form`) is a string-keyed
map; it is modelled as an association list where the first binding for a
key is its value.  Only the string-valued case of `interface{}` values is
modelled — every value the engine itself stores is a string. -/

/-- `Values.Get` (sreq.go): the value associated with the key. -/
def valuesGet (m : List (String × String)) (k : String) : Option String :=
  (m.find? (fun p => p.1 == k)).map (fun p => p.2)

/-- `Values.Set` (sreq.go): sets the key to value, replacing any existing
value. -/
def valuesSet (m : List (String × String)) (k v : String) :
    List (String × String) :=
  (k, v) :: m.filter (fun p => !(p.1 == k))

/-- `Values.SetDefault` (sreq.go): sets the key to value only if the key
has no value yet. -/
def valuesSetDefault (m : List (String × String)) (k v : String) :
    List (String × String) :=
  if (valuesGet m k).isSome then m else valuesSet m k v

/-- `Values.Update` (sreq.go): merges `m2` into `m`, replacing existing
values. -/
def valuesUpdate (m m2 : List (String × String)) : List (String × String) :=
  m2.foldl (fun acc p => valuesSet acc p.1 p.2) m

/-- `defaultUserAgent` (sreq.go, v0.8.6 vendored revision). -/
def defaultUserAgent : String := "go-sreq/0.8.6"

/-- The builder-facing state of `sreq.Request` (request.go, the revision
embedding `*http.Request`): the pending `headers` and `form` maps, the raw
request's body fields, and — once `Decode` has run — the materialised
header map and host of the outbound `*http.Request`.  The `query` and
`cookies` maps and the context are carried but their `Decode` steps touch
only `URL.RawQuery`, the cookie header and the context, none of which
interacts with any property below, so they are left untouched by the
embedded `Decode`. -/
structure BuildRequest where
  headers : List (String × String)
  form : List (String × String)
  query : List (String × String)
  cookies : List (String × String)
  raw : RawRequest
  rawHeader : List (String × String)
  rawHost : Option String
  deriving DecidableEq, Repr

/-- The bytes replayable from an in-memory body reader
(`*bytes.Buffer`, `*bytes.Reader`, `*strings.Reader`); `none` for the
streamed kinds, for which `Request.SetBody` installs no `GetBody`. -/
def BodyKind.replayBytes : BodyKind → Option (List Nat)
  | .buffer bs => some bs
  | .bytesReader bs => some bs
  | .stringsReader bs => some bs
  | .pipe _ => none
  | .otherReader _ => none

/-- `Request.SetBody` (request.go):

```
rc, ok := body.(io.ReadCloser); if !ok && body != nil { rc = ioutil.NopCloser(body) }
req.Body = rc
if body != nil {
    switch v := body.(type) {
    case *bytes.Buffer:   req.ContentLength = int64(v.Len()); req.GetBody = ...replay...
    case *bytes.Reader:   req.ContentLength = int64(v.Len()); req.GetBody = ...replay...
    case *strings.Reader: req.ContentLength = int64(v.Len()); req.GetBody = ...replay...
    default: // leaves ContentLength and GetBody untouched
    }
    if req.GetBody != nil && req.ContentLength == 0 {
        req.Body = http.NoBody; req.GetBody = func() { return http.NoBody }
    }
}
```

`http.NoBody` is represented as a zero-length `bytesReader`. -/
def RawRequest.SetBody (raw : RawRequest) (body : Option BodyKind) :
    RawRequest :=
  match body with
  | none => { raw with body := none }
  | some k =>
      let raw1 :=
        match k.replayBytes with
        | some bs =>
            { raw with
               body := some k
               contentLength := (bs.length : Int)
               getBody := some bs }
        | none => { raw with body := some k }
      if raw1.getBody.isSome && raw1.contentLength = 0 then
        { raw1 with body := some (.bytesReader []), getBody := some [] }
      else
        raw1

/-- `Request.SetBody` lifted to the builder state. -/
def BuildRequest.SetBody (req : BuildRequest) (body : Option BodyKind) :
    BuildRequest :=
  { req with raw := req.raw.SetBody body }

/-- `Request.SetContentType` (request.go):
`req.headers.Set("Content-Type", contentType)`. -/
def BuildRequest.SetContentType (req : BuildRequest) (contentType : String) :
    BuildRequest :=
  { req with headers := valuesSet req.headers "Content-Type" contentType }

/-- `Request.SetHeaders` (request.go): `req.headers.Update(headers)`. -/
def BuildRequest.SetHeaders (req : BuildRequest)
    (headers : List (String × String)) : BuildRequest :=
  { req with headers := valuesUpdate req.headers headers }

/-- `Request.SetForm` (request.go): `req.form.Update(form)`. -/
def BuildRequest.SetForm (req : BuildRequest)
    (form : List (String × String)) : BuildRequest :=
  { req with form := valuesUpdate req.form form }

/-- `Request.SetJSON` (request.go): marshal the payload (the marshalled
bytes `b` are taken as given, the marshal-error path returns before any
mutation), then
`req.SetContentType("application/json"); req.SetBody(bytes.NewReader(b))`. -/
def BuildRequest.SetJSON (req : BuildRequest) (b : List Nat) : BuildRequest :=
  (req.SetContentType "application/json").SetBody (some (.bytesReader b))

/-- `Request.SetXML` (request.go): as `SetJSON` with
`"application/xml"`. -/
def BuildRequest.SetXML (req : BuildRequest) (b : List Nat) : BuildRequest :=
  (req.SetContentType "application/xml").SetBody (some (.bytesReader b))

/-- `Request.Decode` (request.go, sreq v0.8.x revision), the steps that
materialise the outbound `*http.Request`:

```
if len(req.form) > 0 {
    req.SetContentType("application/x-www-form-urlencoded")
    req.SetBody(strings.NewReader(req.form.URLEncode(true)))
}
req.headers.SetDefault("User-Agent", defaultUserAgent)
for k, vs := range req.headers.Decode(true) {
    if k == "Host" && len(vs) > 0 { req.Host = vs[0] } else { req.Header[k] = vs }
}
```

(The query, cookie and context steps act on disjoint fields, see
`BuildRequest`.)  `urlEncodeForm` is the behaviour of
`Form.URLEncode(true)` on the form map. -/
def BuildRequest.Decode (urlEncodeForm : List (String × String) → List Nat)
    (req : BuildRequest) : BuildRequest :=
  let req1 :=
    if !req.form.isEmpty then
      (req.SetContentType "application/x-www-form-urlencoded").SetBody
        (some (.stringsReader (urlEncodeForm req.form)))
    else
      req
  let hdrs := valuesSetDefault req1.headers "User-Agent" defaultUserAgent
  { req1 with
     headers := hdrs
     rawHeader := hdrs.filter (fun p => !(p.1 == "Host"))
     rawHost := valuesGet hdrs "Host" }

/-- A fresh builder request as produced by `NewRequest` before any option
runs: empty maps, nil body. -/
def newBuildRequest : BuildRequest where
  headers := []
  form := []
  query := []
  cookies := []
  raw := { body := none, getBody := none, contentLength := 0 }
  rawHeader := []
  rawHost := none

/-! ## HTTP verb dispatch (client.go, sreq v0.9.x revision) -/

/-- `MethodGet` ... `MethodDelete` (request.go). -/
def MethodGet : String := "GET"

/-- `MethodPost` (request.go). -/
def MethodPost : String := "POST"

/-- `MethodPut` (request.go). -/
def MethodPut : String := "PUT"

/-- `MethodPatch` (request.go). -/
def MethodPatch : String := "PATCH"

/-- `MethodDelete` (request.go). -/
def MethodDelete : String := "DELETE"

/-- The per-client state relevant to dispatch: the interceptor hook lists
(hooks abstracted by ids). -/
structure ClientRec where
  beforeRequestHooks : List Nat
  afterResponseHooks : List Nat
  deriving DecidableEq, Repr

/-- A record of which client a verb helper dispatched through
(`c.Send(method, url, opts...)` uses the receiver's configuration and
hooks). -/
structure Dispatch where
  client : ClientRec
  method : String
  url : String
  deriving DecidableEq, Repr

/-- `Client.Send` (client.go): builds the request and submits it through
the receiver. -/
def ClientRec.Send (c : ClientRec) (method url : String) : Dispatch :=
  ⟨c, method, url⟩

section Dispatch

/- The package-level `GlobalClient` variable (client.go); every value it
may hold at call time is quantified over. -/
variable (GlobalClient : ClientRec)

/-- `Client.Get` (client.go): `return c.Send(MethodGet, url, opts...)`. -/
def ClientRec.Get (c : ClientRec) (url : String) : Dispatch :=
  c.Send MethodGet url

/-- `Client.Post` (client.go): `return c.Send(MethodPost, url, opts...)`. -/
def ClientRec.Post (c : ClientRec) (url : String) : Dispatch :=
  c.Send MethodPost url

/-- `Client.Put` (client.go):
`return GlobalClient.Send(MethodPut, url, opts...)` — note the receiver is
not used. -/
def ClientRec.Put (_c : ClientRec) (url : String) : Dispatch :=
  GlobalClient.Send MethodPut url

/-- `Client.Patch` (client.go): `return c.Send(MethodPatch, url, opts...)`. -/
def ClientRec.Patch (c : ClientRec) (url : String) : Dispatch :=
  c.Send MethodPatch url

/-- `Client.Delete` (client.go): `return c.Send(MethodDelete, url, opts...)`. -/
def ClientRec.Delete (c : ClientRec) (url : String) : Dispatch :=
  c.Send MethodDelete url

end Dispatch

/-! ## Helper lemmas -/

/-- `find?` over a filter that removes a different key is `find?` over the
original list. -/
theorem find_filter_ne_key (kx k : String) (h : ¬ k = kx) :
    ∀ m : List (String × String),
      ((m.filter (fun p => !(p.1 == kx))).find? (fun p => p.1 == k)) =
        m.find? (fun p => p.1 == k) := by
  intro m
  induction m with
  | nil => rfl
  | cons a m ih =>
      by_cases hxx : a.1 = kx
      · have hak : (a.1 == k) = false := by
          refine beq_eq_false_iff_ne.mpr ?_
          intro hh
          apply h
          rw [← hh]
          exact hxx
        have haxx : (a.1 == kx) = true := beq_iff_eq.mpr hxx
        simp [List.filter_cons, List.find?_cons, haxx, hak, ih]
      · have haxx : (a.1 == kx) = false := beq_eq_false_iff_ne.mpr hxx
        by_cases hk : a.1 = k
        · have hak : (a.1 == k) = true := beq_iff_eq.mpr hk
          simp [List.filter_cons, List.find?_cons, haxx, hak]
        · have hak : (a.1 == k) = false := beq_eq_false_iff_ne.mpr hk
          simp [List.filter_cons, List.find?_cons, haxx, hak, ih]

/-- Looking up the key just set. -/
theorem valuesGet_set_same (m : List (String × String)) (k v : String) :
    valuesGet (valuesSet m k v) k = some v := by
  simp [valuesGet, valuesSet, List.find?_cons]

/-- Setting one key does not change the lookup of another. -/
theorem valuesGet_set_ne (m : List (String × String)) (k v k2 : String)
    (h : ¬ k2 = k) :
    valuesGet (valuesSet m k v) k2 = valuesGet m k2 := by
  have hne : ¬ (k == k2) = true := by
    simp
    intro hh
    exact absurd hh.symm h
  simp [valuesGet, valuesSet, List.find?_cons, hne, find_filter_ne_key k k2 h]

/-- `SetDefault` on one key does not change the lookup of another. -/
theorem valuesGet_setDefault_ne (m : List (String × String)) (k v k2 : String)
    (h : ¬ k2 = k) :
    valuesGet (valuesSetDefault m k v) k2 = valuesGet m k2 := by
  unfold valuesSetDefault
  by_cases hs : (valuesGet m k).isSome
  · simp [hs]
  · simp [hs, valuesGet_set_ne m k v k2 h]

/-- The prefix of `onBeforeRequest` over an error-free hook list: running
the concatenation continues with the rest from the accumulated request. -/
theorem onBeforeRequest_append_of_ok :
    ∀ (hs1 : List Hook) (req req1 : HookReq),
      onBeforeRequest hs1 req = (req1, none) →
      ∀ rest : List Hook,
        onBeforeRequest (hs1 ++ rest) req = onBeforeRequest rest req1 := by
  intro hs1
  induction hs1 with
  | nil =>
      intro req req1 h rest
      have h1 : req = req1 := congrArg Prod.fst h
      rw [List.nil_append, h1]
  | cons hk hs ih =>
      intro req req1 h rest
      simp only [onBeforeRequest, List.cons_append] at h ⊢
      rcases hhk : hk req with ⟨r, e⟩
      rcases e with _ | e0
      · rw [hhk] at h
        simp only at h
        exact ih r req1 h rest
      · rw [hhk] at h
        simp at h

/-! ## C8 — `DefaultBackoff` bounds -/

/-- `float64` conversion is exact below `2^53`. -/
theorem floatRound53_eq_of_lt (x : Nat) (h : x < 2 ^ 53) :
    floatRound53 x = x := by
  unfold floatRound53
  rw [if_pos h]

/-- `float64` conversion of an int64 value is exact when its magnitude is
below `2^53`. -/
theorem floatRoundInt_eq_of_lt (x : Int) (h : |x| < 2 ^ 53) :
    floatRoundInt x = x := by
  have hx : x.natAbs < 2 ^ 53 := by
    have := Int.abs_eq_natAbs x
    omega
  unfold floatRoundInt
  rw [floatRound53_eq_of_lt x.natAbs hx]
  by_cases hneg : x < 0
  · rw [if_pos hneg]
    omega
  · rw [if_neg hneg]
    omega

/-- **C8, counterexample.**  The claim asserts `min ≤ d ≤ max` for every
`0 < min ≤ max`, every attempt and every draw.  It fails twice over.  At
`min = max = 1ns`, attempt 0, draw 0, the halved base `int(temp/2)` is
`0`, the `math.MaxInt32` fallback kicks in and `DefaultBackoff` returns
`2147483647` ns, far above `max = 1`.  And at `min = max = 2^60 + 200` ns,
attempt 0, worst draw, the `int64 → float64` conversion rounds the
durations up to `2^60 + 256` (the 53-bit significand's ulp is 256 there),
so the result is `2^60 + 256` — 56 ns above `max` even though the halved
base is positive. -/
theorem defaultBackoff_bounds_cex :
    0 < (1 : Int) ∧ (1 : Int) ≤ (1 : Int) ∧
    DefaultBackoff 1 1 0 0 = 2147483647 ∧
    ¬ DefaultBackoff 1 1 0 0 ≤ 1 ∧
    DefaultBackoff (2 ^ 60 + 200) (2 ^ 60 + 200) 0 (2 ^ 59 + 127) =
      2 ^ 60 + 256 ∧
    ¬ DefaultBackoff (2 ^ 60 + 200) (2 ^ 60 + 200) 0 (2 ^ 59 + 127) ≤
      2 ^ 60 + 200 := by
  refine ⟨by decide, by decide, by decide, by decide, by decide, by decide⟩

/-- **C8, amended.**  For durations small enough that the `float64`
conversions are exact (`max < 2^53` ns, about 104 days) and whenever the
capped base `min(max, min · 2^attempt)` is at least 2 (so the halved base
is positive and the `MaxInt32` fallback does not trigger), `DefaultBackoff`
returns a duration in `[min, max]` for every value of the random draw:
the base is capped at `max`, the jitter adds a uniform value in
`[0, half)` to the halved base, and the result is floored at `min`.
Beyond `2^53` ns the rounding of the conversions can push the result
above `max` (see the counterexample). -/
theorem defaultBackoff_bounds_amended (mn mx : Int) (attempt draw : Nat)
    (hmn : 0 < mn) (hle : mn ≤ mx) (hmx : mx < 2 ^ 53)
    (hbase : 2 ≤ min mx (mn * 2 ^ attempt)) :
    mn ≤ DefaultBackoff mn mx attempt draw ∧
    DefaultBackoff mn mx attempt draw ≤ mx := by
  have hfmn : floatRoundInt mn = mn :=
    floatRoundInt_eq_of_lt mn (by rw [abs_of_pos hmn]; omega)
  have hfmx : floatRoundInt mx = mx :=
    floatRoundInt_eq_of_lt mx (by rw [abs_of_pos (lt_of_lt_of_le hmn hle)]; omega)
  have htmx : min mx (mn * 2 ^ attempt) ≤ mx := min_le_left _ _
  simp only [DefaultBackoff, hfmn, hfmx]
  set temp : Int := min mx (mn * 2 ^ attempt) with htemp
  have hn0 : 1 ≤ temp / 2 := by omega
  have hnneg : ¬ temp / 2 ≤ 0 := by omega
  simp only [if_neg hnneg]
  have hmod0 : 0 ≤ (draw : Int) % (temp / 2) :=
    Int.emod_nonneg _ (by omega)
  have hmodlt : (draw : Int) % (temp / 2) < temp / 2 :=
    Int.emod_lt_of_pos _ (by omega)
  have hsum : floatRoundInt (temp / 2 + (draw : Int) % (temp / 2)) =
      temp / 2 + (draw : Int) % (temp / 2) := by
    apply floatRoundInt_eq_of_lt
    rw [abs_of_nonneg (by omega)]
    omega
  rw [hsum]
  have habs : |temp / 2 + (draw : Int) % (temp / 2)| =
      temp / 2 + (draw : Int) % (temp / 2) := abs_of_nonneg (by omega)
  rw [habs]
  constructor
  · split <;> omega
  · split <;> omega

/-- **C8, witness** for the amended bound at
`min = 2ns`, `max = 10ns`, attempt 0, draw 5. -/
theorem defaultBackoff_bounds_amended_witness :
    2 ≤ DefaultBackoff 2 10 0 5 ∧ DefaultBackoff 2 10 0 5 ≤ 10 :=
  defaultBackoff_bounds_amended 2 10 0 5 (by decide) (by decide) (by decide)
    (by decide)

/-! ## C1 — merged max-attempts at most one -/

/-- A retry policy whose explicitly negative max-attempts survives the
merge with `defaultRetry` (`Merge` only replaces the value `0`). -/
def negAttemptsRetry : Retry where
  MaxAttempts := -1
  WaitTime := 0
  MaxWaitTime := 0
  Backoff := none
  Trigger := none

/-- A request carrying `negAttemptsRetry` and no body. -/
def negAttemptsRequest : Request where
  Retry := some negAttemptsRetry
  RawRequest := { body := none, getBody := none, contentLength := 0 }

/-- **C1, counterexample.**  The claim promises exactly one transport
attempt for every merged max-attempts ≤ 1, but a negative max-attempts
survives `Retry.Merge` (which only replaces `0`) and the loop
`for i := 0; i < retry.MaxAttempts` then performs zero attempts, not
one. -/
theorem maxAttempts_negative_zero_attempts_cex :
    (Retry.Merge negAttemptsRequest.Retry defaultRetry).MaxAttempts ≤ 1 ∧
    ¬ (doWithRetry negAttemptsRequest (fun i => ⟨some i, none⟩) none).attempts = 1 ∧
    (doWithRetry negAttemptsRequest (fun i => ⟨some i, none⟩) none).attempts = 0 := by
  refine ⟨by decide, by decide, by decide⟩

/-- **C1, amended.**  After merging with the default policy a request's
retry policy with max-attempts ≤ 1 never retries, whatever the trigger and
backoff: the number of transport attempts is `MaxAttempts.toNat` — exactly
one when the merged max-attempts is 1 (and then the run returns that
single attempt's result, with the cancellation check still able to
override the error), and zero when a negative max-attempts survived the
merge. -/
theorem merged_maxAttempts_le_one_attempts (req : Request)
    (transport : Nat → AttemptOutcome) (fireAt : Option Nat)
    (hmax : (Retry.Merge req.Retry defaultRetry).MaxAttempts ≤ 1) :
    (doWithRetry req transport fireAt).attempts =
      (Retry.Merge req.Retry defaultRetry).MaxAttempts.toNat ∧
    ((Retry.Merge req.Retry defaultRetry).MaxAttempts = 1 →
      (doWithRetry req transport fireAt).raw = (transport 0).raw ∧
      (doWithRetry req transport fireAt).err =
        (if cancelledAt fireAt 0 then some Err.ctxCanceled
         else (transport 0).err)) := by
  unfold doWithRetry
  have ht : (Retry.Merge req.Retry defaultRetry).MaxAttempts.toNat = 0 ∨
      (Retry.Merge req.Retry defaultRetry).MaxAttempts.toNat = 1 := by omega
  rcases ht with ht | ht
  · rw [ht]
    constructor
    · simp [doWithRetryLoop]
    · intro h1
      omega
  · rw [ht, show (1 : Nat) = 0 + 1 from rfl]
    constructor
    · simp only [doWithRetryLoop]
      by_cases hc : cancelledAt fireAt 0 = true
      · simp [hc]
      · simp [hc]
    · intro _
      simp only [doWithRetryLoop]
      by_cases hc : cancelledAt fireAt 0 = true
      · simp [hc]
      · simp [hc]

/-- Transport used by the C1 witness. -/
def c1Transport : Nat → AttemptOutcome :=
  fun i => ⟨some (i + 1), some (Err.transport i)⟩

/-- **C1, witness**: a request with no retry policy merges to the default
(max-attempts 1) and performs exactly one attempt, returning that
attempt's raw response and error. -/
theorem merged_maxAttempts_le_one_attempts_witness :
    (doWithRetry ⟨none, ⟨none, none, 0⟩⟩ c1Transport none).attempts = 1 ∧
    (doWithRetry ⟨none, ⟨none, none, 0⟩⟩ c1Transport none).raw = some 1 ∧
    (doWithRetry ⟨none, ⟨none, none, 0⟩⟩ c1Transport none).err =
      some (Err.transport 0) := by
  have h := merged_maxAttempts_le_one_attempts ⟨none, ⟨none, none, 0⟩⟩
    c1Transport none (by decide)
  exact ⟨h.1.trans (by decide), (h.2 (by decide)).1.trans rfl,
    (h.2 (by decide)).2.trans rfl⟩

/-! ## C2 — non-replayable bodies are never retried -/

/-- **C2.**  If the request's raw body is set but carries no `GetBody`
replay capability (as is the case for pipe-fed streamed multipart bodies:
`SetBody` on a pipe reader installs no `GetBody`, shown by the last two
conjuncts), the retry loop's `allowRetry` guard is false and exactly one
transport attempt is performed, however large the merged max-attempts and
whatever the trigger — the branch that would re-send the consumed body is
never reached. -/
theorem nonreplayable_body_single_attempt (req : Request)
    (transport : Nat → AttemptOutcome) (fireAt : Option Nat) (n : Nat)
    (hbody : ¬ req.RawRequest.body = none)
    (hget : req.RawRequest.getBody = none)
    (hmax : 1 ≤ (Retry.Merge req.Retry defaultRetry).MaxAttempts) :
    (doWithRetry req transport fireAt).attempts = 1 ∧
    (RawRequest.SetBody { body := none, getBody := none, contentLength := 0 }
        (some (.pipe n))).getBody = none ∧
    ¬ (RawRequest.SetBody { body := none, getBody := none, contentLength := 0 }
        (some (.pipe n))).body = none := by
  refine ⟨?_, ?_, ?_⟩
  · unfold doWithRetry
    obtain ⟨m, hm⟩ :
        ∃ m, (Retry.Merge req.Retry defaultRetry).MaxAttempts.toNat = m + 1 :=
      ⟨(Retry.Merge req.Retry defaultRetry).MaxAttempts.toNat - 1, by omega⟩
    rw [hm]
    simp only [doWithRetryLoop]
    by_cases hc : cancelledAt fireAt 0 = true
    · simp [hc]
    · simp [hc, hbody, hget]
  · simp [RawRequest.SetBody, BodyKind.replayBytes]
  · simp [RawRequest.SetBody, BodyKind.replayBytes]

/-- A request whose body is a pipe (no `GetBody`) and whose policy asks
for three attempts. -/
def pipeRequest : Request where
  Retry := some ⟨3, 0, 0, none, none⟩
  RawRequest := { body := some (.pipe 0), getBody := none, contentLength := 0 }

/-- Transport used by the C2 witness: every attempt fails, so the default
trigger would ask for a retry. -/
def c2Transport : Nat → AttemptOutcome :=
  fun i => ⟨none, some (Err.transport i)⟩

/-- **C2, witness**: three allowed attempts, an always-failing transport,
yet exactly one attempt happens because the pipe body is not replayable. -/
theorem nonreplayable_body_single_attempt_witness :
    (doWithRetry pipeRequest c2Transport none).attempts = 1 ∧
    (RawRequest.SetBody { body := none, getBody := none, contentLength := 0 }
        (some (.pipe 5))).getBody = none ∧
    ¬ (RawRequest.SetBody { body := none, getBody := none, contentLength := 0 }
        (some (.pipe 5))).body = none :=
  nonreplayable_body_single_attempt pipeRequest c2Transport none 5
    (by decide) rfl (by decide)

/-! ## C3 — cancellation overrides every in-flight result -/

/-- Invariant of the retry loop under a cancellation schedule `some f`:
entering iteration `i` implies no earlier observation point was cancelled
(`2*i ≤ f`), every return whose recorded observation point lies at or
after `f` carries the cancellation error, and no attempt is started after
the first cancelled observation point (`attempts ≤ f / 2 + 1`). -/
theorem doWithRetryLoop_cancel_inv (transport : Nat → AttemptOutcome)
    (f : Nat) (trigger : RespState → Bool) (allowRetry : Bool) (maxA : Nat) :
    ∀ remaining i resp,
      2 * i ≤ f →
      (∀ p,
        (doWithRetryLoop transport (some f) trigger allowRetry maxA
            remaining i resp).lastObs = some p →
        f ≤ p →
        (doWithRetryLoop transport (some f) trigger allowRetry maxA
            remaining i resp).err = some Err.ctxCanceled) ∧
      (doWithRetryLoop transport (some f) trigger allowRetry maxA
          remaining i resp).attempts ≤ f / 2 + 1 := by
  intro remaining
  induction remaining with
  | zero =>
      intro i resp hi
      constructor
      · intro p hp
        simp [doWithRetryLoop] at hp
      · show i ≤ f / 2 + 1
        omega
  | succ m ih =>
      intro i resp hi
      simp only [doWithRetryLoop]
      split_ifs with hc1 hret htrig hc2
      · have hf2 : f ≤ 2 * i := by simpa [cancelledAt] using hc1
        refine ⟨fun p hp hf => rfl, ?_⟩
        show i + 1 ≤ f / 2 + 1
        omega
      · have hf2 : ¬ f ≤ 2 * i := by simpa [cancelledAt] using hc1
        refine ⟨fun p hp hf => absurd ?_ hf2, ?_⟩
        · have hp2 : (2 : Nat) * i = p := by
            have := hp
            simp only [Option.some.injEq] at this
            exact this
          omega
        · show i + 1 ≤ f / 2 + 1
          omega
      · have hf2 : ¬ f ≤ 2 * i := by simpa [cancelledAt] using hc1
        refine ⟨fun p hp hf => absurd ?_ hf2, ?_⟩
        · have hp2 : (2 : Nat) * i = p := by
            have := hp
            simp only [Option.some.injEq] at this
            exact this
          omega
        · show i + 1 ≤ f / 2 + 1
          omega
      · have hf1 : ¬ f ≤ 2 * i := by simpa [cancelledAt] using hc1
        have hf2 : f ≤ 2 * i + 1 := by simpa [cancelledAt] using hc2
        refine ⟨fun p hp hf => rfl, ?_⟩
        show i + 1 ≤ f / 2 + 1
        omega
      · have hf2 : ¬ f ≤ 2 * i + 1 := by simpa [cancelledAt] using hc2
        exact ih (i + 1) ⟨(transport i).raw, (transport i).err⟩ (by omega)

/-- **C3.**  Whenever the retry engine returns from an observation point
at or after the point at which the request's context fired — whether that
is the `ctx.Err()` check right after a transport attempt or the
cancellable `select` during a backoff wait — the response's terminal error
is the cancellation error (overriding the in-flight transport result), and
no transport attempt is started after the context fired
(`attempts ≤ f / 2 + 1`), so a stale previous response is never
returned. -/
theorem cancellation_overrides_result (req : Request)
    (transport : Nat → AttemptOutcome) (f p : Nat)
    (hp : (doWithRetry req transport (some f)).lastObs = some p)
    (hf : f ≤ p) :
    (doWithRetry req transport (some f)).err = some Err.ctxCanceled ∧
    (doWithRetry req transport (some f)).attempts ≤ f / 2 + 1 := by
  unfold doWithRetry at hp ⊢
  have h := doWithRetryLoop_cancel_inv transport f
    ((Retry.Merge req.Retry defaultRetry).Trigger.getD DefaultTrigger)
    (req.RawRequest.body = none || req.RawRequest.getBody ≠ none)
    (Retry.Merge req.Retry defaultRetry).MaxAttempts.toNat
    (Retry.Merge req.Retry defaultRetry).MaxAttempts.toNat 0 ⟨none, none⟩
    (by omega)
  exact ⟨h.1 p hp hf, h.2⟩

/-- A replayable request allowing three attempts, used by the C3 witness. -/
def c3Request : Request where
  Retry := some ⟨3, 0, 0, none, none⟩
  RawRequest := { body := none, getBody := none, contentLength := 0 }

/-- **C3, witness**: the context fires during the first backoff wait
(observation point 1); the run returns the cancellation error after a
single attempt. -/
theorem cancellation_overrides_result_witness :
    (doWithRetry c3Request c2Transport (some 1)).err =
      some Err.ctxCanceled ∧
    (doWithRetry c3Request c2Transport (some 1)).attempts ≤ 1 / 2 + 1 :=
  cancellation_overrides_result c3Request c2Transport 1 1 (by decide)
    (by decide)

/-! ## C4 — `Content` caches exactly once -/

/-- **C4.**  On a response with no terminal error whose body has not been
read yet, the first `Content()` reads the stream into the cache exactly
once (one network read, body closed); every later `Content()` returns the
identical cached bytes with no further read, no state change and no error
re-raised from the closed stream; and a `JSON()` call made after
`Content()` unmarshals those identical cached bytes without touching the
network stream again. -/
theorem content_caches_exactly_once (resp : Response)
    (um : List Nat → Option Err) (dec : List Nat → Nat × Option Err)
    (herr : resp.err = none) (hbody : resp.body = none) :
    resp.Content.1 = (some resp.netData, resp.netReadErr) ∧
    resp.Content.2.body = some resp.netData ∧
    resp.Content.2.reads = resp.reads + 1 ∧
    resp.Content.2.Content.1 = (some resp.netData, none) ∧
    resp.Content.2.Content.2 = resp.Content.2 ∧
    (Response.JSON um dec resp.Content.2).1 = um resp.netData ∧
    (Response.JSON um dec resp.Content.2).2 = resp.Content.2 := by
  have h1 : resp.Content =
      ((some resp.netData, resp.netReadErr),
       { resp with
          body := some resp.netData
          reads := resp.reads + 1
          closed := true }) := by
    rw [Response.Content, if_neg]
    simp [herr, hbody]
  rw [h1]
  refine ⟨rfl, rfl, rfl, ?_, ?_, ?_, ?_⟩
  · rw [Response.Content, if_pos] <;> simp [herr]
  · rw [Response.Content, if_pos] <;> simp [herr]
  · rw [Response.JSON, if_neg, if_pos] <;> simp [herr]
  · rw [Response.JSON, if_neg, if_pos] <;> simp [herr]

/-- **C4, witness**: a two-byte body whose stream fails at EOF; the first
`Content` surfaces the read error, the second returns the cached bytes
cleanly, and `JSON` afterwards parses the cache. -/
theorem content_caches_exactly_once_witness :
    (Response.Content ⟨none, none, [1, 2], some (Err.readFail 3), 0, false⟩).1 =
      (some [1, 2], some (Err.readFail 3)) ∧
    (Response.Content ⟨none, none, [1, 2], some (Err.readFail 3), 0, false⟩).2.body =
      some [1, 2] ∧
    (Response.Content ⟨none, none, [1, 2], some (Err.readFail 3), 0, false⟩).2.reads = 1 ∧
    ((Response.Content ⟨none, none, [1, 2], some (Err.readFail 3), 0, false⟩).2.Content).1 =
      (some [1, 2], none) ∧
    ((Response.Content ⟨none, none, [1, 2], some (Err.readFail 3), 0, false⟩).2.Content).2 =
      (Response.Content ⟨none, none, [1, 2], some (Err.readFail 3), 0, false⟩).2 ∧
    (Response.JSON (fun _ => none) (fun l => (l.length, none))
        (Response.Content ⟨none, none, [1, 2], some (Err.readFail 3), 0, false⟩).2).1 = none ∧
    (Response.JSON (fun _ => none) (fun l => (l.length, none))
        (Response.Content ⟨none, none, [1, 2], some (Err.readFail 3), 0, false⟩).2).2 =
      (Response.Content ⟨none, none, [1, 2], some (Err.readFail 3), 0, false⟩).2 :=
  content_caches_exactly_once _ (fun _ => none) (fun l => (l.length, none)) rfl rfl

/-! ## C5 — streaming decode mirrors the stream into the cache -/

/-- **C5.**  When `JSON()` (or `XML()`) is the first decode operation on a
response, it decodes from the stream while mirroring every byte the
decoder reads into the cache through the tee: the decode result is the
streaming decoder's result, the cache afterwards holds exactly the bytes
the decoder consumed, one network read happened, and a later `Content()`
returns those bytes — the full body whenever the decoder consumed the
whole stream — without reading the network again. -/
theorem json_xml_tee_mirror (resp : Response)
    (um : List Nat → Option Err) (dec : List Nat → Nat × Option Err)
    (herr : resp.err = none) (hbody : resp.body = none) :
    (Response.JSON um dec resp).1 = (dec resp.netData).2 ∧
    (Response.JSON um dec resp).2.body =
      some (resp.netData.take (dec resp.netData).1) ∧
    (Response.JSON um dec resp).2.reads = resp.reads + 1 ∧
    (Response.JSON um dec resp).2.Content.1 =
      (some (resp.netData.take (dec resp.netData).1), none) ∧
    (Response.JSON um dec resp).2.Content.2 = (Response.JSON um dec resp).2 ∧
    ((dec resp.netData).1 = resp.netData.length →
      (Response.JSON um dec resp).2.Content.1.1 = some resp.netData) ∧
    (Response.XML um dec resp).2.body =
      some (resp.netData.take (dec resp.netData).1) ∧
    (Response.XML um dec resp).2.Content.1 =
      (some (resp.netData.take (dec resp.netData).1), none) := by
  have h1 : Response.JSON um dec resp =
      ((dec resp.netData).2,
       { resp with
          body := some (resp.netData.take (dec resp.netData).1)
          reads := resp.reads + 1
          closed := true }) := by
    rw [Response.JSON, if_neg, if_neg] <;> simp [herr, hbody]
  have h2 : Response.XML um dec resp =
      ((dec resp.netData).2,
       { resp with
          body := some (resp.netData.take (dec resp.netData).1)
          reads := resp.reads + 1
          closed := true }) := by
    rw [Response.XML, if_neg, if_neg] <;> simp [herr, hbody]
  rw [h1, h2]
  refine ⟨rfl, rfl, rfl, ?_, ?_, ?_, rfl, ?_⟩
  · rw [Response.Content, if_pos] <;> simp [herr]
  · rw [Response.Content, if_pos] <;> simp [herr]
  · intro hc
    rw [Response.Content, if_pos] <;> simp [herr, hc]
  · rw [Response.Content, if_pos] <;> simp [herr]

/-- **C5, witness**: a three-byte stream of which the streaming decoder
consumes two bytes; the cache and the later `Content` hold exactly those
two bytes. -/
theorem json_xml_tee_mirror_witness :
    (Response.JSON (fun _ => none) (fun _ => (2, none))
        ⟨none, none, [7, 8, 9], none, 0, false⟩).2.body = some [7, 8] ∧
    ((Response.JSON (fun _ => none) (fun _ => (2, none))
        ⟨none, none, [7, 8, 9], none, 0, false⟩).2.Content).1 =
      (some [7, 8], none) :=
  ⟨(json_xml_tee_mirror ⟨none, none, [7, 8, 9], none, 0, false⟩
      (fun _ => none) (fun _ => (2, none)) rfl rfl).2.1,
   (json_xml_tee_mirror ⟨none, none, [7, 8, 9], none, 0, false⟩
      (fun _ => none) (fun _ => (2, none)) rfl rfl).2.2.2.1⟩

/-! ## C6 — transparent gzip substitution -/

/-- **C6.**  After a successful exchange (no transport error, no pending
background error) whose response carries a `Content-Encoding` header equal
to `gzip` up to ASCII case and a non-zero `ContentLength`, and whose body
is not already a `gzip.Reader`, `Client.do` substitutes a decompressing
reader over the raw stream before returning, so reading the body — and
`Content()` on the wrapped response — yields the decompressed bytes, not
the raw compressed stream. -/
theorem gzip_substitution_decompresses (gz : BodyReader → Option Err)
    (gunzip : List Nat → List Nat) (raw : RawResponse) (data : List Nat)
    (hfold : equalFold raw.contentEncoding "gzip" = true)
    (hlen : ¬ raw.contentLength = 0)
    (hbody : raw.body = .plain data) :
    (Client.do gz (raw, none) none).1.body = .gzipReader (.plain data) ∧
    (Client.do gz (raw, none) none).1.body.readAll gunzip = gunzip data ∧
    (Client.do gz (raw, none) none).2 = gz (.plain data) ∧
    (mkResponse gunzip (Client.do gz (raw, none) none).1 none).Content.1.1 =
      some (gunzip data) := by
  have h1 : Client.do gz (raw, none) none =
      ({ raw with body := .gzipReader raw.body }, gz raw.body) := by
    simp [Client.do, hfold, hlen, hbody, BodyReader.isGzipReader]
  rw [h1, hbody]
  refine ⟨rfl, rfl, rfl, ?_⟩
  rw [Response.Content, if_neg]
  · simp [mkResponse, BodyReader.readAll]
  · simp [mkResponse]

/-- **C6, witness**: `Content-Encoding: GzIp` (mixed case), unknown
content length (-1), compressed payload `[7]`, a decompressor mapping each
byte `b` to `[b, b]`; the substituted body reads as `[7, 7]`. -/
theorem gzip_substitution_decompresses_witness :
    (Client.do (fun _ => none)
        (⟨"GzIp", -1, .plain [7]⟩, none) none).1.body =
      .gzipReader (.plain [7]) ∧
    (Client.do (fun _ => none)
        (⟨"GzIp", -1, .plain [7]⟩, none) none).1.body.readAll
        (fun l => l.flatMap (fun b => [b, b])) = [7, 7] ∧
    (Client.do (fun _ => none)
        (⟨"GzIp", -1, .plain [7]⟩, none) none).2 = none ∧
    (mkResponse (fun l => l.flatMap (fun b => [b, b]))
        (Client.do (fun _ => none)
          (⟨"GzIp", -1, .plain [7]⟩, none) none).1 none).Content.1.1 =
      some [7, 7] :=
  gzip_substitution_decompresses (fun _ => none)
    (fun l => l.flatMap (fun b => [b, b])) ⟨"GzIp", -1, .plain [7]⟩ [7]
    (by decide) (by decide) rfl

/-! ## C7 — a failing before-hook aborts the send -/

/-- **C7.**  Before-request hooks run in registration order; if the hooks
`hs1` all succeed (producing `req1`) and the next hook `hbad` returns an
error `e`, then `Client.Do` returns a response whose terminal error is
`e`, with zero transport attempts (the retry engine is never entered), and
the hooks `hs2` registered after `hbad` are skipped — the hook-chain
result does not depend on them. -/
theorem before_hook_error_aborts (hs1 hs2 : List Hook) (hbad : Hook)
    (mkRequest : HookReq → Request) (transport : Nat → AttemptOutcome)
    (fireAt : Option Nat) (req req1 : HookReq) (e : Err)
    (h1 : onBeforeRequest hs1 req = (req1, none))
    (h2 : (hbad req1).2 = some e) :
    Client.Do (hs1 ++ hbad :: hs2) mkRequest transport fireAt req =
      ⟨none, some e, 0, none⟩ ∧
    onBeforeRequest (hs1 ++ hbad :: hs2) req = ((hbad req1).1, some e) := by
  have hrun : onBeforeRequest (hs1 ++ hbad :: hs2) req =
      ((hbad req1).1, some e) := by
    rw [onBeforeRequest_append_of_ok hs1 req req1 h1]
    rw [onBeforeRequest]
    rcases hb : hbad req1 with ⟨r2, e2⟩
    rw [hb] at h2
    simp only at h2
    rw [h2]
  refine ⟨?_, hrun⟩
  rw [Client.Do, hrun]

/-- Hook witness material: hook 1 logs and succeeds, hook 2 logs and
fails with `Err.hook 7`, hook 3 would log if it ever ran. -/
def witnessHooks : List Hook :=
  [fun r => ({ r with log := r.log ++ [1] }, none),
   fun r => ({ r with log := r.log ++ [2] }, some (Err.hook 7)),
   fun r => ({ r with log := r.log ++ [3] }, none)]

/-- **C7, witness**: with the three hooks above, `Client.Do` returns the
second hook's error with zero transport attempts, and hook 3 never runs
(the final hook log is `[1, 2]`). -/
theorem before_hook_error_aborts_witness :
    Client.Do witnessHooks (fun _ => ⟨none, ⟨none, none, 0⟩⟩)
        (fun _ => ⟨some 1, none⟩) none ⟨0, []⟩ =
      ⟨none, some (Err.hook 7), 0, none⟩ ∧
    onBeforeRequest witnessHooks ⟨0, []⟩ = (⟨0, [1, 2]⟩, some (Err.hook 7)) :=
  before_hook_error_aborts
    [fun r => ({ r with log := r.log ++ [1] }, none)]
    [fun r => ({ r with log := r.log ++ [3] }, none)]
    (fun r => ({ r with log := r.log ++ [2] }, some (Err.hook 7)))
    (fun _ => ⟨none, ⟨none, none, 0⟩⟩) (fun _ => ⟨some 1, none⟩) none
    ⟨0, []⟩ ⟨0, [1]⟩ (Err.hook 7) rfl rfl

/-! ## C10 — `Client.Put` dispatches through `GlobalClient` -/

/-- **C10.**  `c.Put` submits through the package-level `GlobalClient`
(value `g` at call time) — carrying `GlobalClient`'s configuration and
hook lists, not the receiver's — while `c.Get`, `c.Post`, `c.Patch` and
`c.Delete` all submit through the receiver `c`. -/
theorem put_dispatches_through_globalClient (g c : ClientRec) (url : String) :
    ClientRec.Put g c url = g.Send MethodPut url ∧
    (ClientRec.Put g c url).client = g ∧
    ClientRec.Get c url = c.Send MethodGet url ∧
    ClientRec.Post c url = c.Send MethodPost url ∧
    ClientRec.Patch c url = c.Send MethodPatch url ∧
    ClientRec.Delete c url = c.Send MethodDelete url ∧
    (¬ c = g → ¬ (ClientRec.Put g c url).client = c) := by
  refine ⟨rfl, rfl, rfl, rfl, rfl, rfl, ?_⟩
  intro hne
  simpa [ClientRec.Put, ClientRec.Send] using fun h => hne h.symm

/-- **C10, witness**: a client with a registered hook, distinct from the
global client, still dispatches `Put` through the global client. -/
theorem put_dispatches_through_globalClient_witness :
    ¬ (ClientRec.Put ⟨[], []⟩ ⟨[1], []⟩ "http://example.com").client =
      (⟨[1], []⟩ : ClientRec) :=
  (put_dispatches_through_globalClient ⟨[], []⟩ ⟨[1], []⟩
    "http://example.com").2.2.2.2.2.2 (by decide)

/-! ## C9 — explicit Content-Type versus body-type defaults -/

/-- Filtering out a different key does not change a lookup. -/
theorem valuesGet_filter_ne (kx k : String) (h : ¬ k = kx)
    (m : List (String × String)) :
    valuesGet (m.filter (fun p => !(p.1 == kx))) k = valuesGet m k := by
  unfold valuesGet
  rw [find_filter_ne_key kx k h m]

/-- Form encoder used by the C9 concrete instances; the encoded body bytes
are irrelevant to the header property. -/
def emptyFormEncoder : List (String × String) → List Nat := fun _ => []

/-- A request whose caller explicitly set `Content-Type: text/csv` and
then supplied a form body. -/
def callerTypedFormRequest : BuildRequest :=
  (newBuildRequest.SetContentType "text/csv").SetForm [("k", "v")]

/-- **C9, counterexample.**  The caller explicitly sets
`Content-Type: text/csv` and supplies a form body, yet the materialised
request carries the body-type default `application/x-www-form-urlencoded`:
`Decode` re-runs `SetContentType` (a plain `Set`, not `SetDefault`) for
every non-empty form, overwriting the caller's value. -/
theorem contentType_caller_loses_cex :
    valuesGet callerTypedFormRequest.headers "Content-Type" =
      some "text/csv" ∧
    valuesGet ((callerTypedFormRequest.Decode emptyFormEncoder).rawHeader)
      "Content-Type" = some "application/x-www-form-urlencoded" ∧
    ¬ valuesGet ((callerTypedFormRequest.Decode emptyFormEncoder).rawHeader)
      "Content-Type" = some "text/csv" := by
  refine ⟨by decide, by decide, by decide⟩

/-- **C9, amended.**  Content-Type is governed by last-write-wins, not by
"explicitly set beats default": for any request with a non-empty form the
materialised request always carries `application/x-www-form-urlencoded`,
overwriting any caller-set value (the form default is applied at `Decode`
time, after every option); for JSON/XML bodies the header is simply the
later of the two `Set` calls, so a caller-set value survives exactly when
it is applied after the body option. -/
theorem contentType_last_write_wins (req : BuildRequest)
    (enc : List (String × String) → List Nat) (ct : String) (b : List Nat) :
    (req.form.isEmpty = false →
      valuesGet ((req.Decode enc).rawHeader) "Content-Type" =
        some "application/x-www-form-urlencoded") ∧
    (req.form.isEmpty = true →
      valuesGet ((((req.SetJSON b).SetContentType ct).Decode enc).rawHeader)
        "Content-Type" = some ct) ∧
    (req.form.isEmpty = true →
      valuesGet ((((req.SetContentType ct).SetJSON b).Decode enc).rawHeader)
        "Content-Type" = some "application/json") ∧
    (req.form.isEmpty = true →
      valuesGet ((((req.SetXML b).SetContentType ct).Decode enc).rawHeader)
        "Content-Type" = some ct) := by
  refine ⟨?_, ?_, ?_, ?_⟩
  · intro hform
    simp [BuildRequest.Decode, BuildRequest.SetBody,
      BuildRequest.SetContentType, hform]
    rw [valuesGet_filter_ne "Host" "Content-Type" (by decide),
      valuesGet_setDefault_ne _ "User-Agent" _ "Content-Type" (by decide),
      valuesGet_set_same]
  · intro hform
    simp [BuildRequest.Decode, BuildRequest.SetBody,
      BuildRequest.SetContentType, BuildRequest.SetJSON, hform]
    rw [valuesGet_filter_ne "Host" "Content-Type" (by decide),
      valuesGet_setDefault_ne _ "User-Agent" _ "Content-Type" (by decide),
      valuesGet_set_same]
  · intro hform
    simp [BuildRequest.Decode, BuildRequest.SetBody,
      BuildRequest.SetContentType, BuildRequest.SetJSON, hform]
    rw [valuesGet_filter_ne "Host" "Content-Type" (by decide),
      valuesGet_setDefault_ne _ "User-Agent" _ "Content-Type" (by decide),
      valuesGet_set_same]
  · intro hform
    simp [BuildRequest.Decode, BuildRequest.SetBody,
      BuildRequest.SetContentType, BuildRequest.SetXML, hform]
    rw [valuesGet_filter_ne "Host" "Content-Type" (by decide),
      valuesGet_setDefault_ne _ "User-Agent" _ "Content-Type" (by decide),
      valuesGet_set_same]

/-- **C9, witness**: the form default overwrites the caller's value, while
a Content-Type set after a JSON body survives. -/
theorem contentType_last_write_wins_witness :
    valuesGet ((callerTypedFormRequest.Decode emptyFormEncoder).rawHeader)
      "Content-Type" = some "application/x-www-form-urlencoded" ∧
    valuesGet ((((newBuildRequest.SetJSON [1]).SetContentType
        "text/csv").Decode emptyFormEncoder).rawHeader)
      "Content-Type" = some "text/csv" :=
  ⟨(contentType_last_write_wins callerTypedFormRequest emptyFormEncoder
      "text/csv" []).1 (by decide),
   (contentType_last_write_wins newBuildRequest emptyFormEncoder
      "text/csv" [1]).2.1 (by decide)⟩

end Sreq

